import Mathlib

/-!
# Charge watchface (`src/main.c`): embedding and verified properties

The watchface is a single C file.  This development embeds

* `upcase`, the in-place ASCII uppercase loop,
* `update_time`, which formats the hour, minute and date buffers and hands
  them to the three text fields,
* `update_battery`, the draw callback of the battery layer,
* `main_window_load` and `main_window_unload`, the window handlers,

over a recording model of the toolkit: every toolkit call is appended to a
trace, and creation calls hand out fresh handles.

A `char` buffer is a `List Nat` of byte values; the C string held by a buffer
is the run of bytes before the first `0`.
-/

namespace Charge

/-! ## `upcase` -/

/-- The loop of `upcase`, started at index `i`:
`for (; str[i] != 0; i++) if (str[i] >= 'a' && str[i] <= 'z') str[i] -= 0x20;`.
Reading past the end of the buffer is undefined in C and yields `none`.
The first argument bounds the number of iterations; `upcase` passes a bound
that no run reaches before it leaves the buffer.  Bytes of value 128 and
above are outside `'a'..'z'` whether `char` is signed or not. -/
def upcaseLoop : Nat → List Nat → Nat → Option (List Nat)
  | 0, _, _ => none
  | fuel + 1, str, i =>
    match str[i]? with
    | none => none
    | some c =>
      if c ≠ 0 then
        upcaseLoop fuel (if 97 ≤ c ∧ c ≤ 122 then str.set i (c - 0x20) else str) (i + 1)
      else
        some str

/-- The function `char *upcase(char *str)`: runs the loop from index 0 and
returns the buffer it was given, as modified. -/
def upcase (str : List Nat) : Option (List Nat) :=
  upcaseLoop (str.length + 1) str 0

/-- The C string held by a buffer: the bytes before the first `0`. -/
def cstr (buf : List Nat) : List Nat :=
  buf.takeWhile (fun c => c != 0)

/-- What `upcase` does to one byte. -/
def upcaseByte (c : Nat) : Nat :=
  if 97 ≤ c ∧ c ≤ 122 then c - 0x20 else c

/-! ## Time formatting -/

/-- The fields of `struct tm` that the formats of this program read.
`localtime` delivers them normalised: minutes 0..59, hours 0..23, day of
month 1..31 (the type admits 0 as well), weekday 0..6 counted from Sunday. -/
structure Tm where
  tm_min : Fin 60
  tm_hour : Fin 24
  tm_mday : Fin 32
  tm_wday : Fin 7

/-- The bytes of an ASCII string literal, without terminator. -/
def bytes (str : String) : List Nat :=
  str.toList.map Char.toNat

/-- Decimal rendering of a number in a field of width two, padded with `'0'`
on the left. -/
def zeroPad2 (n : Nat) : List Nat :=
  let ds := Nat.toDigits 10 n
  (List.replicate (2 - ds.length) '0' ++ ds).map Char.toNat

/-- The abbreviated weekday names of the C locale, indexed by `tm_wday`. -/
def weekdayAbbrev : List String :=
  ["Sun", "Mon", "Tue", "Wed", "Thu", "Fri", "Sat"]

/-- Modelled from the spec: `strftime` belongs to the platform C library and
is absent from the sources.  One conversion specifier, as ISO C defines it
for the C locale: `%a` abbreviated weekday name, `%d` day of month `01`-`31`,
`%H` hour `00`-`23`, `%I` hour on the 12-hour clock `01`-`12`, `%M` minute
`00`-`59`, `%%` a percent sign.  Other specifiers are not used by the program
and produce nothing here. -/
def strftimeConv (conv : Char) (t : Tm) : List Nat :=
  if conv = 'a' then bytes (weekdayAbbrev.getD t.tm_wday.val "?")
  else if conv = 'd' then zeroPad2 t.tm_mday.val
  else if conv = 'H' then zeroPad2 t.tm_hour.val
  else if conv = 'I' then zeroPad2 (if t.tm_hour.val % 12 = 0 then 12 else t.tm_hour.val % 12)
  else if conv = 'M' then zeroPad2 t.tm_min.val
  else if conv = '%' then [37]
  else []

/-- Modelled from the spec: the text `strftime` produces for a format string;
ordinary characters are copied, `%x` is expanded by `strftimeConv`. -/
def strftimeText : List Char → Tm → List Nat
  | [], _ => []
  | [c], _ => [c.toNat]
  | c :: d :: rest, t =>
    if c = '%' then strftimeConv d t ++ strftimeText rest t
    else c.toNat :: strftimeText (d :: rest) t

/-- Modelled from the spec: `strftime(s, maxsize, format, t)` of the platform
C library, absent from the sources.  When the text and its terminator fit in
`maxsize` bytes they are stored at the start of `s` and the length of the text
is returned; the bytes of `s` behind the terminator are not touched.
Otherwise `0` is returned; ISO C leaves the contents of `s` indeterminate in
that case, and the model leaves `s` as it was. -/
def strftime (s : List Nat) (maxsize : Nat) (format : String) (t : Tm) : Nat × List Nat :=
  let out := strftimeText format.toList t
  if out.length + 1 ≤ maxsize then (out.length, out ++ 0 :: s.drop (out.length + 1))
  else (0, s)

/-! ## The toolkit, as a recorder of calls -/

/-- A pointer handed out by the toolkit (font, layer or text layer). -/
abbrev Handle := Nat

inductive GColor where
  | GColorClear
  | GColorBlack
  | GColorWhite
  | GColorGreen
  deriving DecidableEq, Repr

structure GPoint where
  x : Int
  y : Int
  deriving DecidableEq, Repr

structure GRect where
  x : Int
  y : Int
  w : Int
  h : Int
  deriving DecidableEq, Repr

inductive GTextAlignment where
  | GTextAlignmentCenter
  deriving DecidableEq, Repr

/-- The two layer update procedures the program registers. -/
inductive UpdateProc where
  | update_bg
  | update_battery
  deriving DecidableEq, Repr

/-- The bundled font resources. -/
inductive ResourceId where
  | RESOURCE_ID_OPEN_SANS_26
  | RESOURCE_ID_OPEN_SANS_18
  deriving DecidableEq, Repr

/-- What a `const char *` passed to `text_layer_set_text` points to.  The
text layer keeps the pointer, not a copy of the characters. -/
inductive TextSrc where
  | literal (text : String)
  | s_hour_buffer
  | s_minute_buffer
  | s_date_buffer
  deriving DecidableEq, Repr

/-- The toolkit calls with an effect, as they appear in the trace.  Creation
calls carry the handle they returned. -/
inductive Call where
  | fonts_load_custom_font (res : ResourceId) (ret : Handle)
  | fonts_unload_custom_font (font : Handle)
  | layer_create (frame : GRect) (ret : Handle)
  | layer_destroy (layer : Handle)
  | layer_set_update_proc (layer : Handle) (proc : UpdateProc)
  | layer_add_child (parent : Handle) (child : Handle)
  | text_layer_create (frame : GRect) (ret : Handle)
  | text_layer_destroy (tl : Handle)
  | text_layer_set_background_color (tl : Handle) (color : GColor)
  | text_layer_set_text_color (tl : Handle) (color : GColor)
  | text_layer_set_font (tl : Handle) (font : Handle)
  | text_layer_set_text (tl : Handle) (text : TextSrc)
  | text_layer_set_text_alignment (tl : Handle) (alignment : GTextAlignment)
  | graphics_context_set_fill_color (color : GColor)
  | graphics_fill_rect (rect : GRect)
  | graphics_fill_circle (p : GPoint) (radius : Nat)
  deriving DecidableEq, Repr

/-- What the firmware supplies when asked: the 12/24-hour preference, the
broken-down local time, the battery charge, and the root layer of the window
with its bounds. -/
structure Host where
  clock_is_24h_style : Bool
  localtime : Tm
  charge_percent : Nat
  root_layer : Handle
  bounds : GRect

/-- The file-scope variables of `main.c`, followed by the state of the
recording toolkit: the next unused handle and the calls made so far. -/
structure State where
  s_hour_label : Handle
  s_minute_label : Handle
  s_date_label : Handle
  s_solid_layer : Handle
  s_time_layer : Handle
  s_battery_layer : Handle
  s_time_font : Handle
  s_date_font : Handle
  s_date_buffer : List Nat
  s_hour_buffer : List Nat
  s_minute_buffer : List Nat
  next : Handle
  trace : List Call

/-- The state at program start: null handles, `s_date_buffer[] = "XXX XXX"`,
zeroed hour and minute buffers, and a toolkit that has made no call. -/
def State.init : State where
  s_hour_label := 0
  s_minute_label := 0
  s_date_label := 0
  s_solid_layer := 0
  s_time_layer := 0
  s_battery_layer := 0
  s_time_font := 0
  s_date_font := 0
  s_date_buffer := bytes "XXX XXX" ++ [0]
  s_hour_buffer := [0, 0, 0]
  s_minute_buffer := [0, 0, 0]
  next := 1
  trace := []

/-- Records one toolkit call. -/
def call (c : Call) (s : State) : State :=
  { s with trace := s.trace ++ [c] }

/-- The call `fonts_load_custom_font(resource_get_handle(res))`: a fresh font
handle. -/
def fonts_load_custom_font (res : ResourceId) (s : State) : Handle × State :=
  (s.next, call (.fonts_load_custom_font res s.next) { s with next := s.next + 1 })

/-- The call `layer_create(frame)`: a fresh layer. -/
def layer_create (frame : GRect) (s : State) : Handle × State :=
  (s.next, call (.layer_create frame s.next) { s with next := s.next + 1 })

/-- The call `text_layer_create(frame)`: a fresh text layer. -/
def text_layer_create (frame : GRect) (s : State) : Handle × State :=
  (s.next, call (.text_layer_create frame s.next) { s with next := s.next + 1 })

/-- The call `text_layer_get_layer(tl)`: the layer embedded in a text layer,
which shares its address. -/
def text_layer_get_layer (tl : Handle) : Handle := tl

/-- The value of `sizeof(s_hour_buffer)`, a `char[3]`. -/
def sizeof_s_hour_buffer : Nat := 3

/-- The value of `sizeof(s_minute_buffer)`, a `char[3]`. -/
def sizeof_s_minute_buffer : Nat := 3

/-- The value of `sizeof(s_date_buffer)`: the initialiser `"XXX XXX"` and its
terminator. -/
def sizeof_s_date_buffer : Nat := "XXX XXX".length + 1

/-! ## The program -/

/-- The function `update_time`.  The calls `time` and `localtime` yield
`host.localtime`.  The result is `none` when `upcase` would read past the end
of `s_date_buffer`. -/
def update_time (host : Host) (s : State) : Option State :=
  let t := host.localtime
  let s :=
    if host.clock_is_24h_style = true then
      { s with s_hour_buffer := (strftime s.s_hour_buffer sizeof_s_hour_buffer "%H" t).2 }
    else
      { s with s_hour_buffer := (strftime s.s_hour_buffer sizeof_s_hour_buffer "%I" t).2 }
  let s := { s with s_minute_buffer := (strftime s.s_minute_buffer sizeof_s_minute_buffer "%M" t).2 }
  let s := call (.text_layer_set_text s.s_hour_label .s_hour_buffer) s
  let s := call (.text_layer_set_text s.s_minute_label .s_minute_buffer) s
  let s := { s with s_date_buffer := (strftime s.s_date_buffer sizeof_s_date_buffer "%a %d" t).2 }
  match upcase s.s_date_buffer with
  | none => none
  | some str =>
    let s := { s with s_date_buffer := str }
    some (call (.text_layer_set_text s.s_date_label .s_date_buffer) s)

/-- The function `update_battery`, the update procedure of the battery layer.  The flag
tells whether the build defines `PBL_COLOR`.  Both reads of
`battery_state_service_peek().charge_percent` see the same host value. -/
def update_battery (PBL_COLOR : Bool) (host : Host) (s : State) : State :=
  let bat := host.charge_percent
  let s :=
    if PBL_COLOR then
      call (.graphics_context_set_fill_color .GColorGreen) s
    else
      let s := call (.graphics_context_set_fill_color .GColorBlack) s
      let s := call (.graphics_fill_circle ⟨104, 128⟩ (bat + (bat / 20))) s
      call (.graphics_context_set_fill_color .GColorWhite) s
  call (.graphics_fill_circle ⟨104, 128⟩ host.charge_percent) s

/-- The window handler `main_window_load`. -/
def main_window_load (host : Host) (s : State) : Option State :=
  let window_layer := host.root_layer
  let bounds := host.bounds
  -- Create the fonts
  let (f, s) := fonts_load_custom_font .RESOURCE_ID_OPEN_SANS_26 s
  let s := { s with s_time_font := f }
  let (f, s) := fonts_load_custom_font .RESOURCE_ID_OPEN_SANS_18 s
  let s := { s with s_date_font := f }
  -- Create the background layers
  let (l, s) := layer_create bounds s
  let s := { s with s_solid_layer := l }
  let (l, s) := layer_create bounds s
  let s := { s with s_battery_layer := l }
  let (l, s) := layer_create bounds s
  let s := { s with s_time_layer := l }
  -- Update background layers
  let s := call (.layer_set_update_proc s.s_solid_layer .update_bg) s
  let s := call (.layer_set_update_proc s.s_battery_layer .update_battery) s
  -- Create the labels
  let (l, s) := text_layer_create ⟨72, 72, 40, 30⟩ s
  let s := { s with s_hour_label := l }
  let (l, s) := text_layer_create ⟨72, 97, 40, 30⟩ s
  let s := { s with s_minute_label := l }
  let (l, s) := text_layer_create ⟨55, 122, 70, 30⟩ s
  let s := { s with s_date_label := l }
  -- Set background and text colors
  let s := call (.text_layer_set_background_color s.s_hour_label .GColorClear) s
  let s := call (.text_layer_set_text_color s.s_hour_label .GColorBlack) s
  let s := call (.text_layer_set_background_color s.s_minute_label .GColorClear) s
  let s := call (.text_layer_set_text_color s.s_minute_label .GColorBlack) s
  let s := call (.text_layer_set_background_color s.s_date_label .GColorClear) s
  let s := call (.text_layer_set_text_color s.s_date_label .GColorBlack) s
  -- Set fonts
  let s := call (.text_layer_set_font s.s_hour_label s.s_time_font) s
  let s := call (.text_layer_set_font s.s_minute_label s.s_time_font) s
  let s := call (.text_layer_set_font s.s_date_label s.s_date_font) s
  -- Avoid blank screen in case updating time fails
  let s := call (.text_layer_set_text s.s_hour_label (.literal "00")) s
  let s := call (.text_layer_set_text s.s_minute_label (.literal "00")) s
  let s := call (.text_layer_set_text s.s_date_label (.literal "ERROR")) s
  -- Align text
  let s := call (.text_layer_set_text_alignment s.s_hour_label .GTextAlignmentCenter) s
  let s := call (.text_layer_set_text_alignment s.s_minute_label .GTextAlignmentCenter) s
  let s := call (.text_layer_set_text_alignment s.s_date_label .GTextAlignmentCenter) s
  -- Apply layers to screen
  let s := call (.layer_add_child window_layer s.s_solid_layer) s
  let s := call (.layer_add_child window_layer s.s_battery_layer) s
  let s := call (.layer_add_child window_layer s.s_time_layer) s
  let s := call (.layer_add_child s.s_time_layer (text_layer_get_layer s.s_hour_label)) s
  let s := call (.layer_add_child s.s_time_layer (text_layer_get_layer s.s_minute_label)) s
  let s := call (.layer_add_child window_layer (text_layer_get_layer s.s_date_label)) s
  -- Display the time immediately
  update_time host s

/-- The window handler `main_window_unload`. -/
def main_window_unload (s : State) : State :=
  -- Unload the fonts
  let s := call (.fonts_unload_custom_font s.s_time_font) s
  let s := call (.fonts_unload_custom_font s.s_date_font) s
  -- Destroy the background layers
  let s := call (.layer_destroy s.s_solid_layer) s
  let s := call (.layer_destroy s.s_time_layer) s
  let s := call (.layer_destroy s.s_battery_layer) s
  -- Destroy the labels
  let s := call (.text_layer_destroy s.s_hour_label) s
  let s := call (.text_layer_destroy s.s_date_label) s
  call (.text_layer_destroy s.s_minute_label) s

/-! ## Reading the trace -/

/-- The calls recorded between an earlier state `s` and a later state `t`. -/
def since (s t : State) : List Call :=
  t.trace.drop s.trace.length

/-- The kinds of object the toolkit hands out. -/
inductive Kind where
  | font
  | layer
  | textLayer
  deriving DecidableEq, Repr

/-- The object a call creates, if it is a creation call. -/
def creates : Call → Option (Kind × Handle)
  | .fonts_load_custom_font _ h => some (.font, h)
  | .layer_create _ h => some (.layer, h)
  | .text_layer_create _ h => some (.textLayer, h)
  | _ => none

/-- The object a call releases, if it is a release call; each kind has its
own release call. -/
def releases : Call → Option (Kind × Handle)
  | .fonts_unload_custom_font h => some (.font, h)
  | .layer_destroy h => some (.layer, h)
  | .text_layer_destroy h => some (.textLayer, h)
  | _ => none

/-- The objects created along a trace, in order. -/
def created (tr : List Call) : List (Kind × Handle) :=
  tr.filterMap creates

/-- The objects released along a trace, in order. -/
def released (tr : List Call) : List (Kind × Handle) :=
  tr.filterMap releases

/-- The font a text layer is configured with after a trace: the argument of
the last `text_layer_set_font` on it. -/
def fontOf (tr : List Call) (tl : Handle) : Option Handle :=
  tr.foldl
    (fun acc c =>
      match c with
      | .text_layer_set_font tl2 f => if tl2 = tl then some f else acc
      | _ => acc)
    none

/-- The text a text layer shows after a trace: the argument of the last
`text_layer_set_text` on it. -/
def textOf (tr : List Call) (tl : Handle) : Option TextSrc :=
  tr.foldl
    (fun acc c =>
      match c with
      | .text_layer_set_text tl2 src => if tl2 = tl then some src else acc
      | _ => acc)
    none

/-- Whether a trace has unloaded the font `f`. -/
def fontUnloaded (tr : List Call) (f : Handle) : Bool :=
  decide (Call.fonts_unload_custom_font f ∈ tr)

/-- Whether a trace has destroyed the text layer `tl`. -/
def textLayerDestroyed (tr : List Call) (tl : Handle) : Bool :=
  decide (Call.text_layer_destroy tl ∈ tr)

/-- Whether, after a trace, the text layer `tl` is not yet destroyed and is
configured with a font that has been unloaded. -/
def usesUnloadedFont (tr : List Call) (tl : Handle) : Bool :=
  !textLayerDestroyed tr tl &&
    match fontOf tr tl with
    | some f => fontUnloaded tr f
    | none => false

/-- The ordering property in question for the unload phase: at every point of
the unload sequence `unload`, run after the load sequence `load`, no text
layer among `tls` that is not yet destroyed is configured with a font that is
already unloaded. -/
def FontsOutliveTextLayers (load unload : List Call) (tls : List Handle) : Prop :=
  ∀ k ≤ unload.length, ∀ tl ∈ tls, usesUnloadedFont (load ++ unload.take k) tl = false

/-- The radii of the circles filled along a trace, in drawing order. -/
def circleRadii (tr : List Call) : List Nat :=
  tr.filterMap fun c =>
    match c with
    | .graphics_fill_circle _ r => some r
    | _ => none

/-- The bytes a text layer renders for a text source in state `s`: the
characters of a literal, or the C string currently held by the buffer. -/
def shown (s : State) : TextSrc → List Nat
  | .literal text => bytes text
  | .s_hour_buffer => cstr s.s_hour_buffer
  | .s_minute_buffer => cstr s.s_minute_buffer
  | .s_date_buffer => cstr s.s_date_buffer

/-- The uppercase weekday abbreviations, Sunday first. -/
def weekdayUpper : List String :=
  ["SUN", "MON", "TUE", "WED", "THU", "FRI", "SAT"]

/-- A sample host: Wednesday the 7th, 09:41, 12-hour display, 80 % charge. -/
def Host.sample : Host where
  clock_is_24h_style := false
  localtime := ⟨41, 9, 7, 3⟩
  charge_percent := 80
  root_layer := 0
  bounds := ⟨0, 0, 144, 168⟩

/-- A sample host at midnight: Sunday the 1st, 00:00, 24-hour display. -/
def Host.midnight : Host where
  clock_is_24h_style := true
  localtime := ⟨0, 0, 1, 0⟩
  charge_percent := 100
  root_layer := 0
  bounds := ⟨0, 0, 144, 168⟩

end Charge

namespace Charge

theorem upcaseByte_ne_zero {c : Nat} (h : c ≠ 0) : upcaseByte c ≠ 0 := by
  unfold upcaseByte
  split <;> omega

theorem upcaseByte_idem (c : Nat) : upcaseByte (upcaseByte c) = upcaseByte c := by
  unfold upcaseByte
  split_ifs <;> omega

theorem getElem?_append_cons (pre : List Nat) (c : Nat) (t : List Nat) :
    (pre ++ c :: t)[pre.length]? = some c := by
  induction pre with
  | nil => simp
  | cons a pre ih => simpa using ih

theorem set_append_cons (pre : List Nat) (c d : Nat) (t : List Nat) :
    (pre ++ c :: t).set pre.length d = pre ++ d :: t := by
  induction pre with
  | nil => rfl
  | cons a pre ih => simp

/-- The loop, positioned after an already processed prefix `pre`, uppercases
the zero-free run `mid` and stops at the terminator. -/
theorem upcaseLoop_run (mid : List Nat) :
    ∀ (pre rest : List Nat) (fuel : Nat), (∀ c ∈ mid, c ≠ 0) → mid.length < fuel →
      upcaseLoop fuel (pre ++ mid ++ 0 :: rest) pre.length
        = some (pre ++ mid.map upcaseByte ++ 0 :: rest) := by
  induction mid with
  | nil =>
    intro pre rest fuel _ hf
    obtain ⟨f, rfl⟩ : ∃ f, fuel = f + 1 := ⟨fuel - 1, by simp at hf; omega⟩
    simp only [upcaseLoop, List.append_nil, List.map_nil, getElem?_append_cons]
    simp
  | cons c mid ih =>
    intro pre rest fuel hz hf
    obtain ⟨f, rfl⟩ : ∃ f, fuel = f + 1 := ⟨fuel - 1, by simp at hf; omega⟩
    have hc : c ≠ 0 := hz c (by simp)
    have hz2 : ∀ d ∈ mid, d ≠ 0 := fun d hd => hz d (by simp [hd])
    have hf2 : mid.length < f := by simp at hf; omega
    have key := ih (pre ++ [upcaseByte c]) rest f hz2 hf2
    simp only [List.append_assoc, List.singleton_append, List.length_append,
      List.length_singleton, List.cons_append] at key
    simp only [upcaseLoop, List.append_assoc, List.cons_append, List.map_cons]
    rw [getElem?_append_cons]
    simp only [hc, ne_eq, not_false_eq_true, if_true]
    have hset : (if 97 ≤ c ∧ c ≤ 122 then (pre ++ c :: (mid ++ 0 :: rest)).set pre.length (c - 0x20)
        else pre ++ c :: (mid ++ 0 :: rest)) = pre ++ upcaseByte c :: (mid ++ 0 :: rest) := by
      unfold upcaseByte
      split_ifs <;> simp [set_append_cons]
    rw [hset]
    exact key

theorem upcase_append (mid rest : List Nat) (hz : ∀ c ∈ mid, c ≠ 0) :
    upcase (mid ++ 0 :: rest) = some (mid.map upcaseByte ++ 0 :: rest) := by
  have := upcaseLoop_run mid [] rest ((mid ++ 0 :: rest).length + 1) hz (by simp; omega)
  simpa [upcase] using this

end Charge

namespace Charge

/-! ## `upcase`: contract and idempotence -/

/-- A buffer whose first `0` is at index `n` splits at that terminator. -/
theorem split_at_terminator (s : List Nat) (n : Nat) (hn : s[n]? = some 0)
    (hnz : ∀ i < n, s[i]? ≠ some 0) :
    ∃ pre rest, s = pre ++ 0 :: rest ∧ pre.length = n ∧ ∀ c ∈ pre, c ≠ 0 := by
  have hlt : n < s.length := by
    by_contra h
    rw [List.getElem?_eq_none (by omega)] at hn
    exact absurd hn (by simp)
  have hget : s[n] = 0 := by
    rw [List.getElem?_eq_getElem hlt] at hn
    exact Option.some.inj hn
  refine ⟨s.take n, s.drop (n + 1), ?_, by simp; omega, ?_⟩
  · have h1 : s.drop n = s[n] :: s.drop (n + 1) := List.drop_eq_getElem_cons hlt
    rw [← hget, ← h1, List.take_append_drop]
  · intro c hc hc0
    subst hc0
    obtain ⟨i, hi, hic⟩ := List.getElem_of_mem hc
    have hi2 : i < n := by simp at hi; omega
    apply hnz i hi2
    rw [List.getElem_take] at hic
    rw [List.getElem?_eq_getElem (by omega), hic]

/-- C1: for every buffer `s` holding a NUL-terminated string of length `n`
(the first `0` is at index `n`), `upcase` returns the buffer `r` with: the same
length; at every index before the terminator, a byte in `'a'..'z'` replaced by
that byte minus `0x20` and any other byte unchanged; the terminator still at
index `n` and no `0` before it; the bytes behind the terminator untouched.
The replacement of a lowercase letter is its uppercase counterpart. -/
theorem upcase_contract (s : List Nat) (n : Nat) (hn : s[n]? = some 0)
    (hnz : ∀ i < n, s[i]? ≠ some 0) :
    ∃ r, upcase s = some r ∧ r.length = s.length ∧
      (∀ i c, i < n → s[i]? = some c →
        r[i]? = some (if 97 ≤ c ∧ c ≤ 122 then c - 0x20 else c)) ∧
      r[n]? = some 0 ∧ (∀ i < n, r[i]? ≠ some 0) ∧
      (∀ i, n < i → r[i]? = s[i]?) ∧
      (∀ c, 97 ≤ c → c ≤ 122 → 65 ≤ c - 0x20 ∧ c - 0x20 ≤ 90 ∧
        Char.ofNat (c - 0x20) = (Char.ofNat c).toUpper) := by
  obtain ⟨pre, rest, rfl, rfl, hz⟩ := split_at_terminator s n hn hnz
  have hml : (pre.map upcaseByte).length = pre.length := List.length_map _ _
  refine ⟨pre.map upcaseByte ++ 0 :: rest, upcase_append _ _ hz, by simp, ?_, ?_, ?_, ?_, ?_⟩
  · intro i c hi hc
    rw [List.getElem?_append_left hi] at hc
    rw [List.getElem?_append_left (by omega), List.getElem?_map, hc]
    rfl
  · have h := getElem?_append_cons (pre.map upcaseByte) 0 rest
    rwa [hml] at h
  · intro i hi h
    rw [List.getElem?_append_left (by omega), List.getElem?_map] at h
    cases hsi : pre[i]? with
    | none => simp [hsi] at h
    | some c =>
      simp only [hsi, Option.map_some', Option.some.injEq] at h
      exact upcaseByte_ne_zero (hz c (List.getElem?_mem hsi)) h
  · intro i hi
    rw [List.getElem?_append_right (by omega), List.getElem?_append_right (by omega), hml]
  · intro c h1 h2
    interval_cases c <;> exact ⟨by decide, by decide, by decide⟩

/-- Witness for C1: the buffer `"Wed 07"` with its terminator and one spare
byte. -/
theorem upcase_contract_witness :
    ∃ r, upcase [87, 101, 100, 32, 48, 55, 0, 0] = some r ∧
      r.length = [87, 101, 100, 32, 48, 55, 0, 0].length ∧
      (∀ i c, i < 6 → [87, 101, 100, 32, 48, 55, 0, 0][i]? = some c →
        r[i]? = some (if 97 ≤ c ∧ c ≤ 122 then c - 0x20 else c)) ∧
      r[6]? = some 0 ∧ (∀ i < 6, r[i]? ≠ some 0) ∧
      (∀ i, 6 < i → r[i]? = [87, 101, 100, 32, 48, 55, 0, 0][i]?) ∧
      (∀ c, 97 ≤ c → c ≤ 122 → 65 ≤ c - 0x20 ∧ c - 0x20 ≤ 90 ∧
        Char.ofNat (c - 0x20) = (Char.ofNat c).toUpper) :=
  upcase_contract [87, 101, 100, 32, 48, 55, 0, 0] 6 (by decide) (by decide)

/-- C2: `upcase` is idempotent: on every buffer `s` holding a NUL-terminated
string, `upcase` returns a buffer `r`, and `upcase` applied to `r` returns `r`
again. -/
theorem upcase_idempotent (s : List Nat) (n : Nat) (hn : s[n]? = some 0)
    (hnz : ∀ i < n, s[i]? ≠ some 0) :
    ∃ r, upcase s = some r ∧ upcase r = some r := by
  obtain ⟨pre, rest, rfl, _, hz⟩ := split_at_terminator s n hn hnz
  refine ⟨pre.map upcaseByte ++ 0 :: rest, upcase_append _ _ hz, ?_⟩
  · have hz2 : ∀ c ∈ pre.map upcaseByte, c ≠ 0 := by
      intro c hc
      obtain ⟨d, hd, rfl⟩ := List.mem_map.mp hc
      exact upcaseByte_ne_zero (hz d hd)
    rw [upcase_append _ _ hz2, List.map_map]
    congr 2
    apply List.map_congr_left
    intro c _
    exact upcaseByte_idem c

/-- Witness for C2: the mixed-case string `"aZ9 b"`. -/
theorem upcase_idempotent_witness :
    ∃ r, upcase [97, 90, 57, 32, 98, 0] = some r ∧ upcase r = some r :=
  upcase_idempotent [97, 90, 57, 32, 98, 0] 5 (by decide) (by decide)

end Charge

namespace Charge

/-! ## `update_time` -/

theorem cstr_append_zero (out rest : List Nat) (hz : ∀ c ∈ out, c ≠ 0) :
    cstr (out ++ 0 :: rest) = out := by
  induction out with
  | nil => simp [cstr]
  | cons a out ih =>
    have ha : a ≠ 0 := hz a (by simp)
    have := ih (fun c hc => hz c (by simp [hc]))
    simp only [cstr] at this ⊢
    simp [List.takeWhile_cons, ha, this]

theorem zeroPad2_eq : ∀ n : Fin 60, zeroPad2 n.val = [48 + n.val / 10, 48 + n.val % 10] := by
  decide

theorem zeroPad2_lt {n k : Nat} (h : n < k) (hk : k ≤ 60) :
    zeroPad2 n = [48 + n / 10, 48 + n % 10] :=
  zeroPad2_eq ⟨n, by omega⟩

theorem weekday_bytes : ∀ w : Fin 7,
    (bytes (weekdayAbbrev.getD w.val "?")).length = 3 ∧
    (∀ c ∈ bytes (weekdayAbbrev.getD w.val "?"), c ≠ 0) ∧
    (bytes (weekdayAbbrev.getD w.val "?")).map upcaseByte = bytes (weekdayUpper.getD w.val "") := by
  decide

theorem strftimeText_date (t : Tm) :
    strftimeText "%a %d".toList t
      = bytes (weekdayAbbrev.getD t.tm_wday.val "?") ++
          [32, 48 + t.tm_mday.val / 10, 48 + t.tm_mday.val % 10] := by
  have h : strftimeText "%a %d".toList t
      = bytes (weekdayAbbrev.getD t.tm_wday.val "?") ++ 32 :: zeroPad2 t.tm_mday.val := by
    have e : "%a %d".toList = ['%', 'a', ' ', '%', 'd'] := by decide
    rw [e]
    simp [strftimeText, strftimeConv]
  rw [h, zeroPad2_lt t.tm_mday.isLt (by decide)]

theorem strftimeText_H (t : Tm) :
    strftimeText "%H".toList t = [48 + t.tm_hour.val / 10, 48 + t.tm_hour.val % 10] := by
  have h : strftimeText "%H".toList t = zeroPad2 t.tm_hour.val ++ [] := by rfl
  rw [h, zeroPad2_lt t.tm_hour.isLt (by decide), List.append_nil]

theorem strftimeText_M (t : Tm) :
    strftimeText "%M".toList t = [48 + t.tm_min.val / 10, 48 + t.tm_min.val % 10] := by
  have h : strftimeText "%M".toList t = zeroPad2 t.tm_min.val ++ [] := by rfl
  rw [h, zeroPad2_lt t.tm_min.isLt (by decide), List.append_nil]

theorem strftimeText_I (t : Tm) :
    strftimeText "%I".toList t
      = [48 + (if t.tm_hour.val % 12 = 0 then 12 else t.tm_hour.val % 12) / 10,
         48 + (if t.tm_hour.val % 12 = 0 then 12 else t.tm_hour.val % 12) % 10] := by
  have h : strftimeText "%I".toList t
      = zeroPad2 (if t.tm_hour.val % 12 = 0 then 12 else t.tm_hour.val % 12) ++ [] := by rfl
  rw [h, List.append_nil]
  have hv : (if t.tm_hour.val % 12 = 0 then 12 else t.tm_hour.val % 12) < 13 := by
    split <;> omega
  exact zeroPad2_lt hv (by decide)

/-- The hour shown on the 12-hour clock. -/
theorem hour12_range (h : Fin 24) :
    1 ≤ (if h.val % 12 = 0 then 12 else h.val % 12) ∧
      (if h.val % 12 = 0 then 12 else h.val % 12) ≤ 12 := by
  split <;> omega

theorem strftime_H (buf : List Nat) (t : Tm) :
    (strftime buf sizeof_s_hour_buffer "%H" t).2
      = [48 + t.tm_hour.val / 10, 48 + t.tm_hour.val % 10] ++ 0 :: buf.drop 3 := by
  unfold strftime
  simp only
  rw [strftimeText_H]
  simp [sizeof_s_hour_buffer]

theorem strftime_I (buf : List Nat) (t : Tm) :
    (strftime buf sizeof_s_hour_buffer "%I" t).2
      = [48 + (if t.tm_hour.val % 12 = 0 then 12 else t.tm_hour.val % 12) / 10,
         48 + (if t.tm_hour.val % 12 = 0 then 12 else t.tm_hour.val % 12) % 10]
          ++ 0 :: buf.drop 3 := by
  unfold strftime
  simp only
  rw [strftimeText_I]
  simp [sizeof_s_hour_buffer]

theorem strftime_minute (buf : List Nat) (t : Tm) :
    (strftime buf sizeof_s_minute_buffer "%M" t).2
      = [48 + t.tm_min.val / 10, 48 + t.tm_min.val % 10] ++ 0 :: buf.drop 3 := by
  unfold strftime
  simp only
  rw [strftimeText_M]
  simp [sizeof_s_minute_buffer]

theorem strftime_date (buf : List Nat) (t : Tm) :
    (strftime buf sizeof_s_date_buffer "%a %d" t).2
      = (bytes (weekdayAbbrev.getD t.tm_wday.val "?") ++
          [32, 48 + t.tm_mday.val / 10, 48 + t.tm_mday.val % 10]) ++ 0 :: buf.drop 7 := by
  unfold strftime
  simp only
  rw [strftimeText_date]
  have hl := (weekday_bytes t.tm_wday).1
  have hs : sizeof_s_date_buffer = 8 := by decide
  rw [hs]
  generalize bytes (weekdayAbbrev.getD t.tm_wday.val "?") = w at hl ⊢
  simp [hl]

theorem upcase_date (buf : List Nat) (t : Tm) :
    upcase ((bytes (weekdayAbbrev.getD t.tm_wday.val "?") ++
          [32, 48 + t.tm_mday.val / 10, 48 + t.tm_mday.val % 10]) ++ 0 :: buf.drop 7)
      = some ((bytes (weekdayUpper.getD t.tm_wday.val "") ++
          [32, 48 + t.tm_mday.val / 10, 48 + t.tm_mday.val % 10]) ++ 0 :: buf.drop 7) := by
  obtain ⟨_, hz, hup⟩ := weekday_bytes t.tm_wday
  have hd := t.tm_mday.isLt
  rw [upcase_append]
  · rw [List.map_append, hup]
    have h1 : upcaseByte 32 = 32 := by decide
    have h2 : upcaseByte (48 + t.tm_mday.val / 10) = 48 + t.tm_mday.val / 10 := by
      unfold upcaseByte
      split <;> omega
    have h3 : upcaseByte (48 + t.tm_mday.val % 10) = 48 + t.tm_mday.val % 10 := by
      unfold upcaseByte
      split <;> omega
    simp [h1, h2, h3]
  · intro c hc
    rcases List.mem_append.mp hc with h | h
    · exact hz c h
    · simp at h
      omega

/-- What `update_time` returns, in closed form: the three buffers rewritten,
three `text_layer_set_text` calls appended, everything else untouched. -/
theorem update_time_eq (host : Host) (s : State) :
    update_time host s = some
      { s with
        s_hour_buffer :=
          (if host.clock_is_24h_style = true then
              [48 + host.localtime.tm_hour.val / 10, 48 + host.localtime.tm_hour.val % 10]
            else
              [48 + (if host.localtime.tm_hour.val % 12 = 0 then 12
                      else host.localtime.tm_hour.val % 12) / 10,
               48 + (if host.localtime.tm_hour.val % 12 = 0 then 12
                      else host.localtime.tm_hour.val % 12) % 10])
            ++ 0 :: s.s_hour_buffer.drop 3
        s_minute_buffer :=
          [48 + host.localtime.tm_min.val / 10, 48 + host.localtime.tm_min.val % 10]
            ++ 0 :: s.s_minute_buffer.drop 3
        s_date_buffer :=
          (bytes (weekdayUpper.getD host.localtime.tm_wday.val "") ++
            [32, 48 + host.localtime.tm_mday.val / 10, 48 + host.localtime.tm_mday.val % 10])
            ++ 0 :: s.s_date_buffer.drop 7
        trace := s.trace ++
          [.text_layer_set_text s.s_hour_label .s_hour_buffer,
           .text_layer_set_text s.s_minute_label .s_minute_buffer,
           .text_layer_set_text s.s_date_label .s_date_buffer] } := by
  unfold update_time
  cases h24 : host.clock_is_24h_style
  · simp only [Bool.false_eq_true, if_false, call, strftime_I, strftime_minute, strftime_date,
      upcase_date]
    simp
  · simp only [if_true, call, strftime_H, strftime_minute, strftime_date, upcase_date]
    simp

theorem cstr_two_digits (a b : Nat) (rest : List Nat) :
    cstr ([48 + a, 48 + b] ++ 0 :: rest) = [48 + a, 48 + b] := by
  apply cstr_append_zero
  intro c hc
  simp at hc
  omega

theorem weekdayUpper_letters : ∀ w : Fin 7,
    (bytes (weekdayUpper.getD w.val "")).length = 3 ∧
    (∀ c ∈ bytes (weekdayUpper.getD w.val ""), 65 ≤ c ∧ c ≤ 90) := by
  decide

/-- C3: for every weekday and day of month the host can report, and every
prior state whose date buffer has its declared 8 bytes, `update_time` returns
and leaves in `s_date_buffer` the string `"DDD NN"`: the uppercase three-letter
weekday abbreviation, one space, and the day of month as two decimal digits
(tens, then units).  The string has 6 characters, its terminator sits at
index 6, and the buffer keeps its 8 bytes.  Wednesday the 7th gives
`"WED 07"`. -/
theorem update_time_date (host : Host) (s : State) (hlen : s.s_date_buffer.length = 8) :
    ∃ s2, update_time host s = some s2 ∧
      cstr s2.s_date_buffer
        = bytes (weekdayUpper.getD host.localtime.tm_wday.val "") ++
            [32, 48 + host.localtime.tm_mday.val / 10, 48 + host.localtime.tm_mday.val % 10] ∧
      (bytes (weekdayUpper.getD host.localtime.tm_wday.val "")).length = 3 ∧
      (∀ c ∈ bytes (weekdayUpper.getD host.localtime.tm_wday.val ""), 65 ≤ c ∧ c ≤ 90) ∧
      host.localtime.tm_mday.val / 10 < 10 ∧ host.localtime.tm_mday.val % 10 < 10 ∧
      (cstr s2.s_date_buffer).length = 6 ∧
      s2.s_date_buffer[6]? = some 0 ∧
      s2.s_date_buffer.length = 8 ∧
      (host.localtime.tm_wday.val = 3 → host.localtime.tm_mday.val = 7 →
        cstr s2.s_date_buffer = bytes "WED 07") := by
  obtain ⟨hl, hA⟩ := weekdayUpper_letters host.localtime.tm_wday
  have hd := host.localtime.tm_mday.isLt
  refine ⟨_, update_time_eq host s, ?_⟩
  have hc : cstr ((bytes (weekdayUpper.getD host.localtime.tm_wday.val "") ++
            [32, 48 + host.localtime.tm_mday.val / 10, 48 + host.localtime.tm_mday.val % 10])
            ++ 0 :: s.s_date_buffer.drop 7)
        = bytes (weekdayUpper.getD host.localtime.tm_wday.val "") ++
            [32, 48 + host.localtime.tm_mday.val / 10, 48 + host.localtime.tm_mday.val % 10] := by
    apply cstr_append_zero
    intro c hc
    rcases List.mem_append.mp hc with h | h
    · have := hA c h
      omega
    · simp at h
      omega
  refine ⟨hc, hl, hA, by omega, by omega, ?_, ?_, ?_, ?_⟩
  · show (cstr _).length = 6
    rw [hc, List.length_append, hl]
    rfl
  · show (_ ++ 0 :: s.s_date_buffer.drop 7)[6]? = some 0
    have h := getElem?_append_cons
      (bytes (weekdayUpper.getD host.localtime.tm_wday.val "") ++
        [32, 48 + host.localtime.tm_mday.val / 10, 48 + host.localtime.tm_mday.val % 10])
      0 (s.s_date_buffer.drop 7)
    rw [List.length_append, hl] at h
    exact h
  · show (_ ++ 0 :: s.s_date_buffer.drop 7).length = 8
    rw [List.length_append, List.length_append, hl]
    simp [hlen]
  · intro hw hm
    show cstr _ = _
    rw [hc, hw, hm]
    decide

/-- Witness for C3: the program's initial state on Wednesday the 7th. -/
theorem update_time_date_witness :
    ∃ s2, update_time Host.sample State.init = some s2 ∧
      cstr s2.s_date_buffer
        = bytes (weekdayUpper.getD Host.sample.localtime.tm_wday.val "") ++
            [32, 48 + Host.sample.localtime.tm_mday.val / 10,
              48 + Host.sample.localtime.tm_mday.val % 10] ∧
      (bytes (weekdayUpper.getD Host.sample.localtime.tm_wday.val "")).length = 3 ∧
      (∀ c ∈ bytes (weekdayUpper.getD Host.sample.localtime.tm_wday.val ""), 65 ≤ c ∧ c ≤ 90) ∧
      Host.sample.localtime.tm_mday.val / 10 < 10 ∧ Host.sample.localtime.tm_mday.val % 10 < 10 ∧
      (cstr s2.s_date_buffer).length = 6 ∧
      s2.s_date_buffer[6]? = some 0 ∧
      s2.s_date_buffer.length = 8 ∧
      (Host.sample.localtime.tm_wday.val = 3 → Host.sample.localtime.tm_mday.val = 7 →
        cstr s2.s_date_buffer = bytes "WED 07") :=
  update_time_date Host.sample State.init (by decide)

/-- C4: when `clock_is_24h_style()` is false, for every hour of day `h` the
host can report (0..23), `update_time` returns and leaves in `s_hour_buffer`
the two decimal digits of the 12-hour clock value `v` of `h`, where `v` is 12
when `h mod 12 = 0` and `h mod 12` otherwise; `v` lies in 1..12, so the string
lies in `"01"`..`"12"`.  Hour 0 gives `"12"`, hour 13 gives `"01"`.  The
terminator sits at index 2. -/
theorem update_time_hour_12h (host : Host) (s : State)
    (h12 : host.clock_is_24h_style = false) :
    ∃ s2, update_time host s = some s2 ∧
      cstr s2.s_hour_buffer
        = [48 + (if host.localtime.tm_hour.val % 12 = 0 then 12
                  else host.localtime.tm_hour.val % 12) / 10,
           48 + (if host.localtime.tm_hour.val % 12 = 0 then 12
                  else host.localtime.tm_hour.val % 12) % 10] ∧
      1 ≤ (if host.localtime.tm_hour.val % 12 = 0 then 12
            else host.localtime.tm_hour.val % 12) ∧
      (if host.localtime.tm_hour.val % 12 = 0 then 12
        else host.localtime.tm_hour.val % 12) ≤ 12 ∧
      s2.s_hour_buffer[2]? = some 0 ∧
      (host.localtime.tm_hour.val = 0 → cstr s2.s_hour_buffer = bytes "12") ∧
      (host.localtime.tm_hour.val = 13 → cstr s2.s_hour_buffer = bytes "01") := by
  obtain ⟨hv1, hv2⟩ := hour12_range host.localtime.tm_hour
  refine ⟨_, update_time_eq host s, ?_⟩
  simp only [h12, Bool.false_eq_true, if_false]
  refine ⟨cstr_two_digits _ _ _, hv1, hv2, by simp, ?_, ?_⟩
  · intro h0
    rw [cstr_two_digits, h0]
    decide
  · intro h13
    rw [cstr_two_digits, h13]
    decide

/-- Witness for C4: 09:41 in 12-hour mode. -/
theorem update_time_hour_12h_witness :
    ∃ s2, update_time Host.sample State.init = some s2 ∧
      cstr s2.s_hour_buffer
        = [48 + (if Host.sample.localtime.tm_hour.val % 12 = 0 then 12
                  else Host.sample.localtime.tm_hour.val % 12) / 10,
           48 + (if Host.sample.localtime.tm_hour.val % 12 = 0 then 12
                  else Host.sample.localtime.tm_hour.val % 12) % 10] ∧
      1 ≤ (if Host.sample.localtime.tm_hour.val % 12 = 0 then 12
            else Host.sample.localtime.tm_hour.val % 12) ∧
      (if Host.sample.localtime.tm_hour.val % 12 = 0 then 12
        else Host.sample.localtime.tm_hour.val % 12) ≤ 12 ∧
      s2.s_hour_buffer[2]? = some 0 ∧
      (Host.sample.localtime.tm_hour.val = 0 → cstr s2.s_hour_buffer = bytes "12") ∧
      (Host.sample.localtime.tm_hour.val = 13 → cstr s2.s_hour_buffer = bytes "01") :=
  update_time_hour_12h Host.sample State.init rfl

/-- C5: when `clock_is_24h_style()` is true, for every hour `h` (0..23) and
minute `m` (0..59) the host can report, and every prior state whose hour and
minute buffers have their declared 3 bytes, `update_time` returns and leaves
in `s_hour_buffer` exactly the two decimal digits of `h` (tens, then units) and
in `s_minute_buffer` exactly the two decimal digits of `m`, each followed by
the terminator at index 2 of a buffer that keeps its 3 bytes.  Hour 5 gives
`"05"`, hour 23 gives `"23"`, and at 00:00 both buffers hold `"00"`. -/
theorem update_time_24h (host : Host) (s : State)
    (h24 : host.clock_is_24h_style = true)
    (hlen : s.s_hour_buffer.length = 3 ∧ s.s_minute_buffer.length = 3) :
    ∃ s2, update_time host s = some s2 ∧
      cstr s2.s_hour_buffer
        = [48 + host.localtime.tm_hour.val / 10, 48 + host.localtime.tm_hour.val % 10] ∧
      cstr s2.s_minute_buffer
        = [48 + host.localtime.tm_min.val / 10, 48 + host.localtime.tm_min.val % 10] ∧
      host.localtime.tm_hour.val / 10 < 10 ∧ host.localtime.tm_hour.val % 10 < 10 ∧
      host.localtime.tm_min.val / 10 < 10 ∧ host.localtime.tm_min.val % 10 < 10 ∧
      s2.s_hour_buffer[2]? = some 0 ∧ s2.s_hour_buffer.length = 3 ∧
      s2.s_minute_buffer[2]? = some 0 ∧ s2.s_minute_buffer.length = 3 ∧
      (host.localtime.tm_hour.val = 5 → cstr s2.s_hour_buffer = bytes "05") ∧
      (host.localtime.tm_hour.val = 23 → cstr s2.s_hour_buffer = bytes "23") ∧
      (host.localtime.tm_hour.val = 0 → host.localtime.tm_min.val = 0 →
        cstr s2.s_hour_buffer = bytes "00" ∧ cstr s2.s_minute_buffer = bytes "00") := by
  have hh := host.localtime.tm_hour.isLt
  have hm := host.localtime.tm_min.isLt
  refine ⟨_, update_time_eq host s, ?_⟩
  simp only [h24, if_true]
  refine ⟨cstr_two_digits _ _ _, cstr_two_digits _ _ _, by omega, by omega, by omega, by omega,
    by simp, by simp [hlen.1], by simp, by simp [hlen.2], ?_, ?_, ?_⟩
  · intro h
    rw [cstr_two_digits, h]
    decide
  · intro h
    rw [cstr_two_digits, h]
    decide
  · intro h0 m0
    rw [cstr_two_digits, cstr_two_digits, h0, m0]
    decide

/-- Witness for C5: the program's initial state at 00:00 in 24-hour mode. -/
theorem update_time_24h_witness :
    ∃ s2, update_time Host.midnight State.init = some s2 ∧
      cstr s2.s_hour_buffer
        = [48 + Host.midnight.localtime.tm_hour.val / 10,
            48 + Host.midnight.localtime.tm_hour.val % 10] ∧
      cstr s2.s_minute_buffer
        = [48 + Host.midnight.localtime.tm_min.val / 10,
            48 + Host.midnight.localtime.tm_min.val % 10] ∧
      Host.midnight.localtime.tm_hour.val / 10 < 10 ∧
      Host.midnight.localtime.tm_hour.val % 10 < 10 ∧
      Host.midnight.localtime.tm_min.val / 10 < 10 ∧
      Host.midnight.localtime.tm_min.val % 10 < 10 ∧
      s2.s_hour_buffer[2]? = some 0 ∧ s2.s_hour_buffer.length = 3 ∧
      s2.s_minute_buffer[2]? = some 0 ∧ s2.s_minute_buffer.length = 3 ∧
      (Host.midnight.localtime.tm_hour.val = 5 → cstr s2.s_hour_buffer = bytes "05") ∧
      (Host.midnight.localtime.tm_hour.val = 23 → cstr s2.s_hour_buffer = bytes "23") ∧
      (Host.midnight.localtime.tm_hour.val = 0 → Host.midnight.localtime.tm_min.val = 0 →
        cstr s2.s_hour_buffer = bytes "00" ∧ cstr s2.s_minute_buffer = bytes "00") :=
  update_time_24h Host.midnight State.init rfl (by decide)

/-! ## Window load and unload -/

theorem since_of_append {s t : State} {calls : List Call}
    (h : t.trace = s.trace ++ calls) : since s t = calls := by
  simp [since, h]

/-- The handles `main_window_load` stores and the calls it makes, in closed
form, for a toolkit whose next unused handle is `s.next`. -/
theorem main_window_load_eq (host : Host) (s : State) :
    ∃ s1, main_window_load host s = some s1 ∧
      s1.s_time_font = s.next ∧ s1.s_date_font = s.next + 1 ∧
      s1.s_solid_layer = s.next + 2 ∧ s1.s_battery_layer = s.next + 3 ∧
      s1.s_time_layer = s.next + 4 ∧
      s1.s_hour_label = s.next + 5 ∧ s1.s_minute_label = s.next + 6 ∧
      s1.s_date_label = s.next + 7 ∧
      since s s1 =
        [.fonts_load_custom_font .RESOURCE_ID_OPEN_SANS_26 s.next,
         .fonts_load_custom_font .RESOURCE_ID_OPEN_SANS_18 (s.next + 1),
         .layer_create host.bounds (s.next + 2),
         .layer_create host.bounds (s.next + 3),
         .layer_create host.bounds (s.next + 4),
         .layer_set_update_proc (s.next + 2) .update_bg,
         .layer_set_update_proc (s.next + 3) .update_battery,
         .text_layer_create ⟨72, 72, 40, 30⟩ (s.next + 5),
         .text_layer_create ⟨72, 97, 40, 30⟩ (s.next + 6),
         .text_layer_create ⟨55, 122, 70, 30⟩ (s.next + 7),
         .text_layer_set_background_color (s.next + 5) .GColorClear,
         .text_layer_set_text_color (s.next + 5) .GColorBlack,
         .text_layer_set_background_color (s.next + 6) .GColorClear,
         .text_layer_set_text_color (s.next + 6) .GColorBlack,
         .text_layer_set_background_color (s.next + 7) .GColorClear,
         .text_layer_set_text_color (s.next + 7) .GColorBlack,
         .text_layer_set_font (s.next + 5) s.next,
         .text_layer_set_font (s.next + 6) s.next,
         .text_layer_set_font (s.next + 7) (s.next + 1),
         .text_layer_set_text (s.next + 5) (.literal "00"),
         .text_layer_set_text (s.next + 6) (.literal "00"),
         .text_layer_set_text (s.next + 7) (.literal "ERROR"),
         .text_layer_set_text_alignment (s.next + 5) .GTextAlignmentCenter,
         .text_layer_set_text_alignment (s.next + 6) .GTextAlignmentCenter,
         .text_layer_set_text_alignment (s.next + 7) .GTextAlignmentCenter,
         .layer_add_child host.root_layer (s.next + 2),
         .layer_add_child host.root_layer (s.next + 3),
         .layer_add_child host.root_layer (s.next + 4),
         .layer_add_child (s.next + 4) (s.next + 5),
         .layer_add_child (s.next + 4) (s.next + 6),
         .layer_add_child host.root_layer (s.next + 7),
         .text_layer_set_text (s.next + 5) .s_hour_buffer,
         .text_layer_set_text (s.next + 6) .s_minute_buffer,
         .text_layer_set_text (s.next + 7) .s_date_buffer] := by
  unfold main_window_load
  simp only [fonts_load_custom_font, layer_create, text_layer_create, text_layer_get_layer, call]
  rw [update_time_eq]
  refine ⟨_, rfl, rfl, rfl, rfl, rfl, rfl, rfl, rfl, rfl, ?_⟩
  apply since_of_append
  simp

/-- The calls `main_window_unload` makes, in closed form. -/
theorem main_window_unload_eq (s : State) :
    since s (main_window_unload s) =
      [.fonts_unload_custom_font s.s_time_font,
       .fonts_unload_custom_font s.s_date_font,
       .layer_destroy s.s_solid_layer,
       .layer_destroy s.s_time_layer,
       .layer_destroy s.s_battery_layer,
       .text_layer_destroy s.s_hour_label,
       .text_layer_destroy s.s_date_label,
       .text_layer_destroy s.s_minute_label] := by
  apply since_of_append
  simp [main_window_unload, call]

/-- C6: over the calls made by `main_window_load` followed by
`main_window_unload`, from any prior state: load creates exactly the two
fonts, the three plain layers and the three text fields held in the globals,
all distinct, and releases nothing; unload creates nothing, releases each
object created by load exactly once through the release call of its kind, and
releases nothing that load did not create. -/
theorem load_unload_balanced (host : Host) (s : State) :
    ∃ s1, main_window_load host s = some s1 ∧
      created (since s s1) =
        [(.font, s1.s_time_font), (.font, s1.s_date_font),
         (.layer, s1.s_solid_layer), (.layer, s1.s_battery_layer), (.layer, s1.s_time_layer),
         (.textLayer, s1.s_hour_label), (.textLayer, s1.s_minute_label),
         (.textLayer, s1.s_date_label)] ∧
      (created (since s s1)).Nodup ∧
      released (since s s1) = [] ∧
      created (since s1 (main_window_unload s1)) = [] ∧
      (∀ o ∈ created (since s s1), (released (since s1 (main_window_unload s1))).count o = 1) ∧
      (∀ o ∈ released (since s1 (main_window_unload s1)), o ∈ created (since s s1)) := by
  obtain ⟨s1, hload, h1, h2, h3, h4, h5, h6, h7, h8, hL⟩ := main_window_load_eq host s
  refine ⟨s1, hload, ?_⟩
  rw [main_window_unload_eq, hL, h1, h2, h3, h4, h5, h6, h7, h8]
  simp [created, released, creates, releases, List.count_cons]

/-- C7, as stated, fails: started from the initial state, right after the
first call of `main_window_unload` (which unloads `s_time_font`) the hour
text field is not destroyed and is configured with that font. -/
theorem unload_order_counterexample :
    ¬ (∀ s1, main_window_load Host.sample State.init = some s1 →
        FontsOutliveTextLayers (since State.init s1) (since s1 (main_window_unload s1))
          [s1.s_hour_label, s1.s_minute_label, s1.s_date_label]) := by
  intro h
  obtain ⟨s1, hload, h1, h2, h3, h4, h5, h6, h7, h8, hL⟩ :=
    main_window_load_eq Host.sample State.init
  have hk := h s1 hload 1 (by rw [main_window_unload_eq]; simp) s1.s_hour_label (by simp)
  rw [main_window_unload_eq, hL, h1, h6] at hk
  simp [usesUnloadedFont, fontOf, textLayerDestroyed, fontUnloaded, State.init] at hk

/-- C7, amended: from any prior state, `main_window_unload` makes exactly
eight calls, in this order: unload `s_time_font`, unload `s_date_font`,
destroy the solid, time and battery layers, destroy the hour, date and minute
text fields.  After `k` of these calls, no undestroyed text field is
configured with an unloaded font exactly when `k = 0` (nothing unloaded yet)
or `k ≥ 8` (unload has finished and every text field is destroyed). -/
theorem unload_order (host : Host) (s : State) :
    ∃ s1, main_window_load host s = some s1 ∧
      since s1 (main_window_unload s1) =
        [.fonts_unload_custom_font s1.s_time_font,
         .fonts_unload_custom_font s1.s_date_font,
         .layer_destroy s1.s_solid_layer,
         .layer_destroy s1.s_time_layer,
         .layer_destroy s1.s_battery_layer,
         .text_layer_destroy s1.s_hour_label,
         .text_layer_destroy s1.s_date_label,
         .text_layer_destroy s1.s_minute_label] ∧
      ∀ k, (∀ tl ∈ [s1.s_hour_label, s1.s_minute_label, s1.s_date_label],
              usesUnloadedFont
                (since s s1 ++ (since s1 (main_window_unload s1)).take k) tl = false)
            ↔ (k = 0 ∨ 8 ≤ k) := by
  obtain ⟨s1, hload, h1, h2, h3, h4, h5, h6, h7, h8, hL⟩ := main_window_load_eq host s
  refine ⟨s1, hload, main_window_unload_eq s1, ?_⟩
  intro k
  rw [main_window_unload_eq, hL, h1, h2, h3, h4, h5, h6, h7, h8]
  rcases k with _ | _ | _ | _ | _ | _ | _ | _ | k
  all_goals
    simp [usesUnloadedFont, fontOf, textLayerDestroyed, fontUnloaded]

/-- C10: from any prior state and for any host time and display mode,
`main_window_load` returns; it assigned the placeholder literals `"00"`,
`"00"` and `"ERROR"` to the hour, minute and date text fields, and its last
three calls, made by `update_time`, set the text of these fields to
`s_hour_buffer`, `s_minute_buffer` and `s_date_buffer`.  When load returns,
the text of each field is its buffer, and so is not a literal. -/
theorem load_replaces_placeholders (host : Host) (s : State) :
    ∃ s1, main_window_load host s = some s1 ∧
      Call.text_layer_set_text s1.s_hour_label (.literal "00") ∈ since s s1 ∧
      Call.text_layer_set_text s1.s_minute_label (.literal "00") ∈ since s s1 ∧
      Call.text_layer_set_text s1.s_date_label (.literal "ERROR") ∈ since s s1 ∧
      (since s s1).drop ((since s s1).length - 3) =
        [.text_layer_set_text s1.s_hour_label .s_hour_buffer,
         .text_layer_set_text s1.s_minute_label .s_minute_buffer,
         .text_layer_set_text s1.s_date_label .s_date_buffer] ∧
      textOf (since s s1) s1.s_hour_label = some .s_hour_buffer ∧
      textOf (since s s1) s1.s_minute_label = some .s_minute_buffer ∧
      textOf (since s s1) s1.s_date_label = some .s_date_buffer ∧
      (∀ text, textOf (since s s1) s1.s_hour_label ≠ some (.literal text) ∧
        textOf (since s s1) s1.s_minute_label ≠ some (.literal text) ∧
        textOf (since s s1) s1.s_date_label ≠ some (.literal text)) := by
  obtain ⟨s1, hload, h1, h2, h3, h4, h5, h6, h7, h8, hL⟩ := main_window_load_eq host s
  refine ⟨s1, hload, ?_⟩
  rw [hL, h6, h7, h8]
  simp [textOf]

/-! ## `update_battery` -/

/-- The calls `update_battery` makes, in closed form, on either build. -/
theorem update_battery_eq (PBL_COLOR : Bool) (host : Host) (s : State) :
    since s (update_battery PBL_COLOR host s) =
      if PBL_COLOR then
        [.graphics_context_set_fill_color .GColorGreen,
         .graphics_fill_circle ⟨104, 128⟩ host.charge_percent]
      else
        [.graphics_context_set_fill_color .GColorBlack,
         .graphics_fill_circle ⟨104, 128⟩ (host.charge_percent + host.charge_percent / 20),
         .graphics_context_set_fill_color .GColorWhite,
         .graphics_fill_circle ⟨104, 128⟩ host.charge_percent] := by
  apply since_of_append
  cases PBL_COLOR <;> simp [update_battery, call]

/-- C8: for every charge percentage `p` (in particular every `p` in 0..100),
on a colour build `update_battery` selects green and fills one circle, centred
at (104,128) with radius exactly `p`; on a monochrome build it selects black,
fills the outline circle at (104,128) with radius `p + p/20`, selects white,
and fills the main circle at (104,128) with radius exactly `p`.  On either
build every radius drawn is non-decreasing in the charge.  Charge 0 gives
outline 0 and radius 0; charge 100 gives outline 105 and radius 100. -/
theorem update_battery_radius (host : Host) (s : State) :
    since s (update_battery true host s) =
        [.graphics_context_set_fill_color .GColorGreen,
         .graphics_fill_circle ⟨104, 128⟩ host.charge_percent] ∧
    since s (update_battery false host s) =
        [.graphics_context_set_fill_color .GColorBlack,
         .graphics_fill_circle ⟨104, 128⟩ (host.charge_percent + host.charge_percent / 20),
         .graphics_context_set_fill_color .GColorWhite,
         .graphics_fill_circle ⟨104, 128⟩ host.charge_percent] ∧
    (∀ (PBL_COLOR : Bool) (host2 : Host) (s2 : State),
      host.charge_percent ≤ host2.charge_percent →
        List.Forall₂ (fun r r2 => r ≤ r2)
          (circleRadii (since s (update_battery PBL_COLOR host s)))
          (circleRadii (since s2 (update_battery PBL_COLOR host2 s2)))) ∧
    (host.charge_percent = 0 →
      circleRadii (since s (update_battery false host s)) = [0, 0] ∧
      circleRadii (since s (update_battery true host s)) = [0]) ∧
    (host.charge_percent = 100 →
      circleRadii (since s (update_battery false host s)) = [105, 100] ∧
      circleRadii (since s (update_battery true host s)) = [100]) := by
  refine ⟨by rw [update_battery_eq]; rfl, by rw [update_battery_eq]; rfl, ?_, ?_, ?_⟩
  · intro flag host2 s2 hle
    rw [update_battery_eq, update_battery_eq]
    cases flag
    · simp only [Bool.false_eq_true, if_false, circleRadii, List.filterMap_cons,
        List.filterMap_nil]
      refine List.Forall₂.cons ?_ (List.Forall₂.cons hle List.Forall₂.nil)
      omega
    · simp only [if_true, circleRadii, List.filterMap_cons, List.filterMap_nil]
      exact List.Forall₂.cons hle List.Forall₂.nil
  · intro h0
    rw [update_battery_eq, update_battery_eq, h0]
    exact ⟨rfl, rfl⟩
  · intro h100
    rw [update_battery_eq, update_battery_eq, h100]
    exact ⟨rfl, rfl⟩

/-- C9: on a monochrome build, for every charge percentage `p` (in particular
every `p` in 0..100), `update_battery` fills a black circle of radius
`o = p + p/20` and then a white circle of radius `f = p` at the same centre;
`o ≥ f`, `o > f` exactly when `p ≥ 20`, and for `p` in 0..19 the two radii are
equal, so the white circle, drawn second, lies exactly over the black one. -/
theorem update_battery_outline (host : Host) (s : State) :
    ∃ (centre : GPoint) (o f : Nat),
      since s (update_battery false host s) =
        [.graphics_context_set_fill_color .GColorBlack,
         .graphics_fill_circle centre o,
         .graphics_context_set_fill_color .GColorWhite,
         .graphics_fill_circle centre f] ∧
      o = host.charge_percent + host.charge_percent / 20 ∧ f = host.charge_percent ∧
      f ≤ o ∧ (f < o ↔ 20 ≤ host.charge_percent) ∧ (host.charge_percent ≤ 19 → o = f) := by
  refine ⟨⟨104, 128⟩, host.charge_percent + host.charge_percent / 20, host.charge_percent,
    by rw [update_battery_eq]; rfl, rfl, rfl, by omega, by omega, by omega⟩

/-- At 00:00 on a 24-hour display the hour buffer holds the characters `00`:
what the hour field renders from its buffer after load then reads the same as
the placeholder literal, although the field no longer refers to the literal. -/
theorem midnight_hour_characters :
    ∃ s1, main_window_load Host.midnight State.init = some s1 ∧
      textOf (since State.init s1) s1.s_hour_label = some .s_hour_buffer ∧
      shown s1 .s_hour_buffer = shown s1 (.literal "00") := by
  refine ⟨_, rfl, ?_, ?_⟩ <;> decide

end Charge
